import Mathlib

/-!
Verification of the blank-line calculator (`yapf/yapflib/blank_line_calculator.py`).

The module runs two visitor passes over a lib2to3 concrete syntax tree:

* `_OriginalBlankLinesCalculator` records, per first-token-of-a-line, how many
  line breaks preceded it in the original source (the ORIGINAL_NEWLINES value);
* `_BlankLineCalculator` decides how many line breaks the formatted output must
  contain before definitions, decorators, leading comments and statements that
  follow a definition body (the NEWLINES value).

The tree is embedded shallowly: a leaf carries the token type name, its raw
text, line and column, and a numeric identity standing for Python object
identity (the external annotation store is keyed by it).  A composite node
carries its grammar-symbol name and its ordered children.
-/

/-- Shallow embedding of `lib2to3.pytree` elements, restricted to the data the
blank-line calculator reads: type name (`pytree_utils.NodeName`), token text,
line number, column, plus a numeric identity used to key annotations. -/
inductive PyTree where
  | leaf (id : Nat) (name : String) (value : String) (lineno : Nat) (column : Nat)
  | node (id : Nat) (name : String) (children : List PyTree)
deriving Repr

/-- Type name of a tree element; models `pytree_utils.NodeName` (token type
name for leaves, grammar symbol name for composite nodes). -/
def nodeName : PyTree → String
  | .leaf _ n _ _ _ => n
  | .node _ n _ => n

/-- Identity of a tree element (stands for Python object identity). -/
def idOf : PyTree → Nat
  | .leaf i _ _ _ _ => i
  | .node i _ _ => i

/-- Raw token text of a leaf (`leaf.value`); composite nodes have none. -/
def valueOf : PyTree → String
  | .leaf _ _ v _ _ => v
  | .node _ _ _ => ""

/-- Children of a composite node (`node.children`); a leaf has none. -/
def childrenOf : PyTree → List PyTree
  | .leaf _ _ _ _ _ => []
  | .node _ _ cs => cs

/-- Number of embedded line breaks in a token text; models
`value.count ( a newline )` from the source. -/
def countNL (s : String) : Nat := s.toList.count '\n'

/-- Modelled from the spec: `pytree_utils.FirstLeafNode` (the surrounding
repository, not part of the analysed file) descends through first children
until it reaches a leaf; also how `lib2to3` resolves `get_lineno` for a
composite node. -/
def firstLeafNode : PyTree → PyTree
  | .leaf i n v l c => .leaf i n v l c
  | .node i n [] => .node i n []
  | .node _ _ (c :: _) => firstLeafNode c

/-- Line number of a tree element: a leaf's `lineno` attribute, and for a
composite node the line of its first leaf (`lib2to3` `get_lineno`). -/
def linenoOf (t : PyTree) : Nat :=
  match firstLeafNode t with
  | .leaf _ _ _ l _ => l
  | .node _ _ _ => 0

/-- Column of a tree element (a leaf's `column` attribute). -/
def columnOf (t : PyTree) : Nat :=
  match firstLeafNode t with
  | .leaf _ _ _ _ c => c
  | .node _ _ _ => 0

/-! ### Pass 1: `_OriginalBlankLinesCalculator` -/

/-- Models the guard expression
`not self.first_tokens or self.first_tokens[-1].get_lineno != node.get_lineno()`
of `DefaultLeafVisit`.  The left operand of the disequality is the bound
method object `get_lineno` itself — the call parentheses are missing in the
source — and in Python a bound method never compares equal to an integer, so
the disequality evaluates to `True` for every leaf. -/
def getLinenoMethodNeInt : Bool := true

/-- `_OriginalBlankLinesCalculator.DefaultLeafVisit`: appends the leaf to
`first_tokens` when the (buggy, constantly true) guard holds. -/
def defaultLeafVisit (first_tokens : List PyTree) (t : PyTree) : List PyTree :=
  if first_tokens.isEmpty || getLinenoMethodNeInt then first_tokens ++ [t] else first_tokens

mutual
/-- Traversal of `_OriginalBlankLinesCalculator`: the base visitor walks the
tree depth first; `Visit_INDENT`, `Visit_DEDENT` and `Visit_NEWLINE` skip
those layout leaves, every other leaf goes through `DefaultLeafVisit`. -/
def collectFirstTokens (acc : List PyTree) : PyTree → List PyTree
  | .leaf i n v l c =>
    if n == "INDENT" || n == "DEDENT" || n == "NEWLINE" then acc
    else defaultLeafVisit acc (.leaf i n v l c)
  | .node _ _ cs => collectFirstTokensList acc cs

/-- Depth-first traversal of a child list for `collectFirstTokens`. -/
def collectFirstTokensList (acc : List PyTree) : List PyTree → List PyTree
  | [] => acc
  | c :: cs => collectFirstTokensList (collectFirstTokens acc c) cs
end

/-- Stable insertion of a leaf into a list sorted by line number; together
with `sortByLineno` this models `sorted(self.first_tokens, key=get_lineno)`
(Python's `sorted` is stable). -/
def insertByLineno (a : PyTree) : List PyTree → List PyTree
  | [] => [a]
  | b :: l => if linenoOf a ≤ linenoOf b then a :: b :: l else b :: insertByLineno a l

/-- Stable sort by line number (models Python's stable `sorted` with the
`get_lineno` key). -/
def sortByLineno : List PyTree → List PyTree
  | [] => []
  | a :: l => insertByLineno a (sortByLineno l)

/-- Offset subtracted for a comment leaf: a comment's reported `lineno` is the
last line of the comment, so `_compute_newlines` subtracts the embedded line
break count (`leaf.value.count` of the newline character). -/
def commentOffset (a : PyTree) : Nat :=
  if nodeName a == "COMMENT" then countNL (valueOf a) else 0

/-- Value of the cursor `prev` after processing a leaf in `_compute_newlines`:
`prev = leaf.get_lineno()`, advanced past the embedded line breaks when the
leaf is a (possibly multiline) STRING. -/
def advancedPrev (a : PyTree) : Nat :=
  if nodeName a == "STRING" then linenoOf a + countNL (valueOf a) else linenoOf a

/-- Loop body of `_OriginalBlankLinesCalculator._compute_newlines`: walks the
sorted leaves with cursor `prev`, producing for each leaf the pair of its
identity and its ORIGINAL_NEWLINES value `lineno - prev - offset`. -/
def computeNewlinesLoop (prev : Nat) : List PyTree → List (Nat × Int)
  | [] => []
  | a :: rest =>
    (idOf a, (linenoOf a : Int) - (prev : Int) - (commentOffset a : Int)) ::
      computeNewlinesLoop (advancedPrev a) rest

/-- `_OriginalBlankLinesCalculator._compute_newlines`: sort the collected
first tokens by line number and run the linear scan with `prev` starting
at line 1. -/
def computeNewlines (first_tokens : List PyTree) : List (Nat × Int) :=
  computeNewlinesLoop 1 (sortByLineno first_tokens)

/-- One full run of `_OriginalBlankLinesCalculator.Visit` on the root: collect
the first tokens during the traversal, then (at recursion level 0) compute
the ORIGINAL_NEWLINES values. -/
def origVisit (t : PyTree) : List (Nat × Int) :=
  computeNewlines (collectFirstTokens [] t)

/-- Effect of one pass-1 run on the external annotation store (keyed by leaf
identity): every computed value is stored via `SetNodeAnnotation`, which
overwrites any previous value for that leaf; unwritten leaves keep their
previous state.  Modelled from the spec: `pytree_utils.SetNodeAnnotation`
(surrounding repository) stores one value per leaf and key, overwriting. -/
def origRun (t : PyTree) (m : Nat → Option Int) : Nat → Option Int :=
  fun i =>
    match ((origVisit t).filterMap fun w => if w.1 == i then some w.2 else none).getLast? with
    | some v => some v
    | none => m i

/-! ### Pass 2: `_BlankLineCalculator` -/

/-- Module constant `_NO_BLANK_LINES = 1`. -/
def NO_BLANK_LINES : Nat := 1

/-- Module constant `_ONE_BLANK_LINE = 2`. -/
def ONE_BLANK_LINE : Nat := 2

/-- Module constant `_TWO_BLANK_LINES = 3`. -/
def TWO_BLANK_LINES : Nat := 3

/-- Module constant `_PYTHON_STATEMENTS`. -/
def PYTHON_STATEMENTS : List String :=
  ["small_stmt", "expr_stmt", "print_stmt", "del_stmt", "pass_stmt",
   "break_stmt", "continue_stmt", "return_stmt", "raise_stmt", "yield_stmt",
   "import_stmt", "global_stmt", "exec_stmt", "assert_stmt", "if_stmt",
   "while_stmt", "for_stmt", "try_stmt", "with_stmt", "nonlocal_stmt",
   "async_stmt", "simple_stmt"]

/-- Mutable visitor state of `_BlankLineCalculator`, plus the trace of
NEWLINES annotation writes performed so far (`writes` records every
`_SetNumNewlines` call in order: target identity and value, where `none`
models Python's `None`). -/
structure BLCState where
  class_level : Nat
  function_level : Nat
  last_comment_lineno : Nat
  last_was_decorator : Bool
  last_was_class_or_function : Bool
  writes : List (Nat × Option Nat)
deriving Repr, DecidableEq

/-- Initial state of a `_BlankLineCalculator` instance. -/
def initState : BLCState :=
  { class_level := 0, function_level := 0, last_comment_lineno := 0,
    last_was_decorator := false, last_was_class_or_function := false, writes := [] }

/-- `_BlankLineCalculator._SetNumNewlines`: one NEWLINES annotation write
(`SetNodeAnnotation` overwrites, so the trace keeps every write and a later
write to the same identity wins). -/
def setNumNewlines (st : BLCState) (i : Nat) (v : Option Nat) : BLCState :=
  { st with writes := st.writes ++ [(i, v)] }

/-- `_AsyncFunction(node)`: true when the node has a previous sibling whose
type name is ASYNC (`py3compat.PY3` is true on the supported interpreters).
The previous sibling is passed explicitly since the embedding has no parent
pointers. -/
def asyncFunction (prevSib : Option PyTree) : Bool :=
  match prevSib with
  | some s => nodeName s == "ASYNC"
  | none => false

/-- `_StartsInZerothColumn(node)`: first leaf at column 0, or an async
function definition whose ASYNC marker (= previous sibling) is at column 0. -/
def startsInZerothColumn (t : PyTree) (prevSib : Option PyTree) : Bool :=
  columnOf (firstLeafNode t) == 0 ||
    (asyncFunction prevSib &&
      (match prevSib with
       | some s => columnOf s == 0
       | none => false))

/-- `_BlankLineCalculator._IsTopLevel(node)`: not nested in a class or
function, and either starting in the zeroth column or led by a comment. -/
def isTopLevel (st : BLCState) (t : PyTree) (prevSib : Option PyTree) : Bool :=
  (st.class_level == 0 && st.function_level == 0) &&
    (startsInZerothColumn t prevSib || nodeName (firstLeafNode t) == "COMMENT")

/-- `_BlankLineCalculator._GetNumNewlines(node)`: the required-spacing rule.
`cfg` is the style option `BLANK_LINES_AROUND_TOP_LEVEL_DEFINITION`. -/
def getNumNewlines (cfg : Nat) (st : BLCState) (t : PyTree) (prevSib : Option PyTree) : Nat :=
  if st.last_was_decorator then NO_BLANK_LINES
  else if isTopLevel st t prevSib then 1 + cfg
  else ONE_BLANK_LINE

/-- First child of a comment statement (`node.children[0]`, the COMMENT
leaf); total with the node itself as the out-of-contract fallback. -/
def commentLeafOf (t : PyTree) : PyTree :=
  match t with
  | .node _ _ (c :: _) => c
  | other => other

/-- Modelled from the spec: `pytree_utils.IsCommentStatement` (surrounding
repository): a `simple_stmt` node whose first child is a COMMENT leaf —
"standalone comments are wrapped in a simple_stmt node with the comment node
as its only child" (source comment, lines 204-205). -/
def isCommentStatement (t : PyTree) : Bool :=
  nodeName t == "simple_stmt" && nodeName (commentLeafOf t) == "COMMENT"

/-- While-loop of `_SetBlankLinesBetweenCommentAndClassFunc`: consume the
leading comment statements among the children, annotating each comment leaf
with `_ONE_BLANK_LINE` unless `last_was_decorator` holds, and return how many
children were consumed (the `index` past the comments).  Visiting the bare
COMMENT leaf (`self.Visit(node.children[index].children[0])`) is a no-op:
the calculator defines no leaf visitors and the base `DefaultLeafVisit` does
nothing. -/
def setBlankLoop (st : BLCState) : List PyTree → Nat × BLCState
  | [] => (0, st)
  | c :: rest =>
    if isCommentStatement c then
      let st1 :=
        if st.last_was_decorator then st
        else setNumNewlines st (idOf (commentLeafOf c)) (some ONE_BLANK_LINE)
      let r := setBlankLoop st1 rest
      (r.1 + 1, r.2)
    else (0, st)

/-- `_BlankLineCalculator._SetBlankLinesBetweenCommentAndClassFunc(node)`:
after consuming leading comments, annotate the first real child: with
`_NO_BLANK_LINES` when it sits on the line right after the last leading
comment, or right after the last comment statement seen anywhere, otherwise
with `_GetNumNewlines`.  Returns the index of the first non-comment child.
If every child were a comment statement the source would fail on the child
access; the embedding then returns the state unchanged. -/
def setBlankLinesBetweenCommentAndClassFunc (cfg : Nat) (st : BLCState) (t : PyTree)
    (prevSib : Option PyTree) : Nat × BLCState :=
  let cs := childrenOf t
  let r := setBlankLoop st cs
  let index := r.1
  let st1 := r.2
  match cs.get? index with
  | none => (index, st1)
  | some c =>
    if index != 0 &&
        (match cs.get? (index - 1) with
         | some prevC => linenoOf c == linenoOf (commentLeafOf prevC) + 1
         | none => false) then
      (index, setNumNewlines st1 (idOf c) (some NO_BLANK_LINES))
    else
      if st1.last_comment_lineno + 1 == linenoOf c then
        (index, setNumNewlines st1 (idOf c) (some NO_BLANK_LINES))
      else
        (index, setNumNewlines st1 (idOf c) (some (getNumNewlines cfg st1 t prevSib)))

/-- Annotation step of `Visit_decorator`: annotate `children[0]` with
`_NO_BLANK_LINES` when the last comment statement ended on the previous line
(Python truthiness: only when `last_comment_lineno` is nonzero), else with
`_GetNumNewlines(node)`. -/
def decoratorWrite (cfg : Nat) (st : BLCState) (t : PyTree) (prevSib : Option PyTree) : BLCState :=
  match childrenOf t with
  | [] => st
  | c0 :: _ =>
    if st.last_comment_lineno != 0 && st.last_comment_lineno + 1 == linenoOf c0 then
      setNumNewlines st (idOf c0) (some NO_BLANK_LINES)
    else
      setNumNewlines st (idOf c0) (some (getNumNewlines cfg st t prevSib))

/-- Annotation step of the overridden `DefaultNodeVisit`, run before the
children are visited: when the previous sibling statement was a class or
function definition and the node is a recognized Python statement, annotate
its first leaf with `_GetNumNewlines(leaf)`; then clear the flag.  The first
leaf is a leftmost descendant, so its previous sibling is `None`. -/
def defaultNodeVisitPre (cfg : Nat) (st : BLCState) (t : PyTree) : BLCState :=
  let st1 :=
    if st.last_was_class_or_function && PYTHON_STATEMENTS.contains (nodeName t) then
      let l := firstLeafNode t
      setNumNewlines st (idOf l) (some (getNumNewlines cfg st l none))
    else st
  { st1 with last_was_class_or_function := false }

/-- Post-traversal step of `Visit_simple_stmt`: when the first child is a
COMMENT leaf, record its line in `last_comment_lineno`. -/
def simpleStmtPost (st : BLCState) (cs : List PyTree) : BLCState :=
  match cs.head? with
  | some c0 =>
    if nodeName c0 == "COMMENT" then { st with last_comment_lineno := linenoOf c0 } else st
  | none => st

/-- Annotation steps of `Visit_funcdef` (source lines 160-166): the funcdef is
resolved once unconditionally, then — for an async function — once more via
`node.prev_sibling.parent` (the enclosing `async_funcdef` node, whose own
previous sibling is `parentPrev`) with the inner `def` keyword annotated
`None`, or — for a plain function — once more on the funcdef itself.  Returns
the `index` of the last call, from which traversal of the children resumes. -/
def funcdefResolve (cfg : Nat) (parent parentPrev prevSib : Option PyTree) (st : BLCState)
    (t : PyTree) : Nat × BLCState :=
  let r1 := setBlankLinesBetweenCommentAndClassFunc cfg st t prevSib
  let st2 := r1.2
  if asyncFunction prevSib then
    let r2 :=
      match parent with
      | some p => setBlankLinesBetweenCommentAndClassFunc cfg st2 p parentPrev
      | none => (0, st2)
    let st3 :=
      match (childrenOf t).head? with
      | some c0 => setNumNewlines r2.2 (idOf c0) none
      | none => r2.2
    (r2.1, st3)
  else
    setBlankLinesBetweenCommentAndClassFunc cfg st2 t prevSib

mutual
/-- `PyTreeVisitor.Visit` dispatch for `_BlankLineCalculator`: `simple_stmt`,
`decorator`, `classdef` and `funcdef` nodes have dedicated handlers, every
other composite node takes the overridden `DefaultNodeVisit`, and leaves take
the base `DefaultLeafVisit`, a no-op.  `parent` is the node whose child list
is being traversed, `parentPrev` that node's own previous sibling, `prevSib`
the previous sibling of `t` — explicit stand-ins for the pointers of
`lib2to3.pytree`. -/
def visit (cfg : Nat) (parent parentPrev prevSib : Option PyTree) (st : BLCState) :
    PyTree → BLCState
  | .leaf _ _ _ _ _ => st
  | .node i name cs =>
    let t : PyTree := .node i name cs
    if name == "simple_stmt" then
      simpleStmtPost (visitList cfg (some t) prevSib 0 none (defaultNodeVisitPre cfg st t) cs) cs
    else if name == "decorator" then
      let st2 := visitList cfg (some t) prevSib 0 none (decoratorWrite cfg st t prevSib) cs
      { st2 with last_was_decorator := true }
    else if name == "classdef" then
      let r := setBlankLinesBetweenCommentAndClassFunc cfg
        { st with last_was_class_or_function := false } t prevSib
      let st3 := { r.2 with last_was_decorator := false, class_level := r.2.class_level + 1 }
      let st4 := visitList cfg (some t) prevSib r.1 none st3 cs
      { st4 with class_level := st4.class_level - 1, last_was_class_or_function := true }
    else if name == "funcdef" then
      let r := funcdefResolve cfg parent parentPrev prevSib
        { st with last_was_class_or_function := false } t
      let st3 := { r.2 with last_was_decorator := false, function_level := r.2.function_level + 1 }
      let st4 := visitList cfg (some t) prevSib r.1 none st3 cs
      { st4 with function_level := st4.function_level - 1, last_was_class_or_function := true }
    else
      visitList cfg (some t) prevSib 0 none (defaultNodeVisitPre cfg st t) cs

/-- Visit of `node.children[skip:]` in order (`skip` models the slice from
the `index` returned by the comment-consuming helper).  Threads the previous
sibling: skipped children still become the previous sibling of the next one,
exactly as in the real sibling chain. -/
def visitList (cfg : Nat) (parent parentPrev : Option PyTree) (skip : Nat)
    (prev : Option PyTree) (st : BLCState) : List PyTree → BLCState
  | [] => st
  | c :: cs =>
    if skip != 0 then visitList cfg parent parentPrev (skip - 1) (some c) st cs
    else visitList cfg parent parentPrev 0 (some c) (visit cfg parent parentPrev prev st c) cs
end

/-- One full `_BlankLineCalculator` run as done by `CalculateBlankLines`:
a fresh instance visits the root (which has no parent and no siblings). -/
def runBlankLines (cfg : Nat) (t : PyTree) : BLCState :=
  visit cfg none none none initState t

/-- Final NEWLINES annotation of a leaf identity after a run: the last write
wins (`SetNodeAnnotation` overwrites); `none` means never written. -/
def getNewlines (st : BLCState) (i : Nat) : Option (Option Nat) :=
  (st.writes.filterMap fun w => if w.1 == i then some w.2 else none).getLast?

/-- Number of NEWLINES annotation writes a leaf identity received during a
run. -/
def writeCount (st : BLCState) (i : Nat) : Nat :=
  (st.writes.filter fun w => w.1 == i).length

mutual
/-- True when some element of the tree (the node itself or any descendant)
has type name ASYNC; trees without it contain no async function
definitions. -/
def hasAsync : PyTree → Bool
  | .leaf _ n _ _ _ => n == "ASYNC"
  | .node _ n cs => n == "ASYNC" || hasAsyncList cs

/-- List version of `hasAsync`. -/
def hasAsyncList : List PyTree → Bool
  | [] => false
  | c :: cs => hasAsync c || hasAsyncList cs
end

/-! ### Concrete example trees

Sources of the shape produced by lib2to3 for small programs, used to
evaluate the calculator at concrete inputs. -/

/-- Tree of `def f():\n  pass\n<blank>\ndef g():\n  pass\n` — two consecutive
top-level function definitions, no comments, no decorators.  The governed
leaf of the second definition is the `def` keyword leaf with identity 16 at
line 4, column 0. -/
def exTwoDefs : PyTree :=
  .node 0 "file_input" [
    .node 1 "funcdef" [
      .leaf 2 "NAME" "def" 1 0,
      .leaf 3 "NAME" "f" 1 4,
      .node 4 "parameters" [.leaf 5 "LPAR" "(" 1 5, .leaf 6 "RPAR" ")" 1 6],
      .leaf 7 "COLON" ":" 1 7,
      .node 8 "suite" [
        .leaf 9 "NEWLINE" "\n" 1 8,
        .leaf 10 "INDENT" "  " 2 0,
        .node 11 "simple_stmt" [.leaf 12 "NAME" "pass" 2 2, .leaf 13 "NEWLINE" "\n" 2 6],
        .leaf 14 "DEDENT" "" 4 0]],
    .node 15 "funcdef" [
      .leaf 16 "NAME" "def" 4 0,
      .leaf 17 "NAME" "g" 4 4,
      .node 18 "parameters" [.leaf 19 "LPAR" "(" 4 5, .leaf 20 "RPAR" ")" 4 6],
      .leaf 21 "COLON" ":" 4 7,
      .node 22 "suite" [
        .leaf 23 "NEWLINE" "\n" 4 8,
        .leaf 24 "INDENT" "  " 5 0,
        .node 25 "simple_stmt" [.leaf 26 "NAME" "pass" 5 2, .leaf 27 "NEWLINE" "\n" 5 6],
        .leaf 28 "DEDENT" "" 6 0]],
    .leaf 29 "ENDMARKER" "" 6 0]

/-- Tree of `class C:\n  def m1(self):\n    pass\n<blank>\n  def m2(self):\n    pass\n`
— two consecutive method definitions inside a class body.  The governed leaf
of the second method is the `def` keyword leaf with identity 24 at line 5,
column 2. -/
def exClassTwoMethods : PyTree :=
  .node 0 "file_input" [
    .node 1 "classdef" [
      .leaf 2 "NAME" "class" 1 0,
      .leaf 3 "NAME" "C" 1 6,
      .leaf 4 "COLON" ":" 1 7,
      .node 5 "suite" [
        .leaf 6 "NEWLINE" "\n" 1 8,
        .leaf 7 "INDENT" "  " 2 0,
        .node 8 "funcdef" [
          .leaf 9 "NAME" "def" 2 2,
          .leaf 10 "NAME" "m1" 2 6,
          .node 11 "parameters" [
            .leaf 12 "LPAR" "(" 2 8, .leaf 13 "NAME" "self" 2 9, .leaf 14 "RPAR" ")" 2 13],
          .leaf 15 "COLON" ":" 2 14,
          .node 16 "suite" [
            .leaf 17 "NEWLINE" "\n" 2 15,
            .leaf 18 "INDENT" "    " 3 0,
            .node 19 "simple_stmt" [.leaf 20 "NAME" "pass" 3 4, .leaf 21 "NEWLINE" "\n" 3 8],
            .leaf 22 "DEDENT" "" 5 0]],
        .node 23 "funcdef" [
          .leaf 24 "NAME" "def" 5 2,
          .leaf 25 "NAME" "m2" 5 6,
          .node 26 "parameters" [
            .leaf 27 "LPAR" "(" 5 8, .leaf 28 "NAME" "self" 5 9, .leaf 29 "RPAR" ")" 5 13],
          .leaf 30 "COLON" ":" 5 14,
          .node 31 "suite" [
            .leaf 32 "NEWLINE" "\n" 5 15,
            .leaf 33 "INDENT" "    " 6 0,
            .node 34 "simple_stmt" [.leaf 35 "NAME" "pass" 6 4, .leaf 36 "NEWLINE" "\n" 6 8],
            .leaf 37 "DEDENT" "" 7 0]],
        .leaf 38 "DEDENT" "" 7 0]],
    .leaf 39 "ENDMARKER" "" 7 0]

/-- Funcdef node of the decorated definition below; its governed `def`
keyword leaf has identity 7 at line 2, column 0. -/
def exDecoratedFuncdef : PyTree :=
  .node 6 "funcdef" [
    .leaf 7 "NAME" "def" 2 0,
    .leaf 8 "NAME" "f" 2 4,
    .node 9 "parameters" [.leaf 10 "LPAR" "(" 2 5, .leaf 11 "RPAR" ")" 2 6],
    .leaf 12 "COLON" ":" 2 7,
    .node 13 "suite" [
      .leaf 14 "NEWLINE" "\n" 2 8,
      .leaf 15 "INDENT" "  " 3 0,
      .node 16 "simple_stmt" [.leaf 17 "NAME" "pass" 3 2, .leaf 18 "NEWLINE" "\n" 3 6],
      .leaf 19 "DEDENT" "" 4 0]]

/-- Tree of `@deco\ndef f():\n  pass\n` — a decorated top-level function
definition. -/
def exDecorated : PyTree :=
  .node 0 "file_input" [
    .node 1 "decorated" [
      .node 2 "decorator" [
        .leaf 3 "AT" "@" 1 0,
        .leaf 4 "NAME" "deco" 1 1,
        .leaf 5 "NEWLINE" "\n" 1 5],
      exDecoratedFuncdef],
    .leaf 20 "ENDMARKER" "" 4 0]

/-- Leading comment statement of `# note\ndef f():\n  pass\n`: a comment
statement on line 1, its COMMENT leaf has identity 32. -/
def exGluedComment : PyTree :=
  .node 31 "simple_stmt" [.leaf 32 "COMMENT" "# note" 1 0, .leaf 33 "NEWLINE" "\n" 1 6]

/-- Governed `def` keyword leaf of the glued definition, identity 34,
line 2. -/
def exGluedKeyword : PyTree :=
  .leaf 34 "NAME" "def" 2 0

/-- Remaining children of the glued funcdef after the governed keyword. -/
def exGluedRest : List PyTree :=
  [.leaf 35 "NAME" "f" 2 4,
   .node 36 "parameters" [.leaf 37 "LPAR" "(" 2 5, .leaf 38 "RPAR" ")" 2 6],
   .leaf 39 "COLON" ":" 2 7,
   .node 40 "suite" [
     .leaf 41 "NEWLINE" "\n" 2 8,
     .leaf 42 "INDENT" "  " 3 0,
     .node 43 "simple_stmt" [.leaf 44 "NAME" "pass" 3 2, .leaf 45 "NEWLINE" "\n" 3 6],
     .leaf 46 "DEDENT" "" 4 0]]

/-- Funcdef node of `# note\ndef f():\n  pass\n` whose leading comment is a
child of the funcdef node itself (the comment splicer attaches it there):
the comment statement on line 1 is followed by the `def` keyword leaf,
identity 34, on line 2 — visually adjacent. -/
def exGluedFuncdef : PyTree :=
  .node 30 "funcdef" (exGluedComment :: exGluedKeyword :: exGluedRest)

/-- Tree with a two-line comment (lines 1-2, reported lineno 2 = its last
line), a multiline docstring (lines 3-4, reported lineno 3 = its first line)
and the end marker on line 5: consistent, well-formed layout metadata. -/
def exOrig : PyTree :=
  .node 0 "file_input" [
    .node 1 "simple_stmt" [.leaf 2 "COMMENT" "# a\n# b" 2 0, .leaf 3 "NEWLINE" "\n" 2 3],
    .node 4 "simple_stmt" [.leaf 5 "STRING" "\"\"\"d\nd\"\"\"" 3 0, .leaf 6 "NEWLINE" "\n" 4 5],
    .leaf 7 "ENDMARKER" "" 5 0]

/-! ### Definitions used to state the specified properties -/

/-- Cursor of the specified linear scan before processing element `i` of the
sorted worklist, starting from `prev`: after each element the cursor becomes
the element's line number, advanced past a multiline string's embedded line
breaks.  This definition follows the specification's words and is compared
against the source translation `computeNewlinesLoop`. -/
def prevCursor (prev : Nat) : List PyTree → Nat → Nat
  | _, 0 => prev
  | [], _ + 1 => prev
  | a :: rest, i + 1 => prevCursor (advancedPrev a) rest i

/-- Well-formedness of a sorted worklist relative to a cursor start: each
element's start line (its reported line number minus, for a comment, its
embedded line break count) is at or after the previous element's last line
(its reported line number plus, for a string, its embedded line break count).
This is what accurate layout metadata guarantees: distinct tokens occupy
disjoint, ordered line ranges. -/
def wellFormedChain : Int → List PyTree → Bool
  | _, [] => true
  | prev, a :: rest =>
    decide (prev ≤ (linenoOf a : Int) - (commentOffset a : Int)) &&
      wellFormedChain (advancedPrev a : Int) rest

/-- Well-formed layout metadata for a whole tree: the sorted worklist of its
non-layout leaves is a chain starting at line 1. -/
def wellFormedTree (t : PyTree) : Bool :=
  wellFormedChain 1 (sortByLineno (collectFirstTokens [] t))

mutual
/-- Size of a tree, the measure used for induction over the visitor. -/
def tsize : PyTree → Nat
  | .leaf _ _ _ _ _ => 1
  | .node _ _ cs => 1 + tsizeList cs

/-- Size of a child list. -/
def tsizeList : List PyTree → Nat
  | [] => 0
  | c :: cs => tsize c + tsizeList cs
end

/-- Values a NEWLINES annotation write may carry: the two fixed constants,
`1 + BLANK_LINES_AROUND_TOP_LEVEL_DEFINITION`, or — only when `strict` is
false, i.e. async definitions are admitted — Python's `None`. -/
def allowedWrite (cfg : Nat) (strict : Bool) (v : Option Nat) : Prop :=
  v = some NO_BLANK_LINES ∨ v = some ONE_BLANK_LINE ∨ v = some (1 + cfg) ∨
    (strict = false ∧ v = none)

/-- One state extends another by appending allowed writes only, everything
else unconstrained. -/
def GoodExt (cfg : Nat) (strict : Bool) (s s2 : BLCState) : Prop :=
  ∃ Δ, s2.writes = s.writes ++ Δ ∧ ∀ w ∈ Δ, allowedWrite cfg strict w.2

/-! ### Theorems about pass 1 -/

/-- The source loop realizes the specified pointwise formula
`lineno - prev - offset` at every position. -/
theorem computeNewlinesLoop_get? (l : List PyTree) :
    ∀ (prev i : Nat),
      (computeNewlinesLoop prev l).get? i =
        (l.get? i).map fun a =>
          (idOf a, (linenoOf a : Int) - (prevCursor prev l i : Int) - (commentOffset a : Int)) := by
  induction l with
  | nil => intro prev i; cases i <;> rfl
  | cons a rest ih =>
    intro prev i
    cases i with
    | zero => rfl
    | succ j =>
      simpa [computeNewlinesLoop, prevCursor] using ih (advancedPrev a) j

/-- C2: pass 1 does not restrict the worklist to first-on-line leaves.  The
guard of `DefaultLeafVisit` compares the bound method `get_lineno` (the call
parentheses are missing in the source) against an integer, which is always
unequal, so every non-layout leaf is appended: on `exTwoDefs` the worklist
holds all 13 non-layout leaves, and leaf 3 (the name `f`, second token of
line 1, hence not first on its line) is appended and does receive an
ORIGINAL_NEWLINES value, 0 — contradicting the claim that only first-on-line
leaves are appended and annotated. -/
theorem default_leaf_visit_appends_all :
    (collectFirstTokens [] exTwoDefs).map idOf =
      [2, 3, 5, 6, 7, 12, 16, 17, 19, 20, 21, 26, 29] ∧
    origRun exTwoDefs (fun _ => none) 3 = some 0 :=
  ⟨rfl, rfl⟩

/-- C3: for every worklist, after sorting by line number the scan with cursor
`prev` initialized to 1 assigns position `i` the value
`lineno - prev - offset`, where `offset` is the embedded line break count for
a comment leaf and 0 otherwise, and the cursor is advanced past a multiline
string's embedded line breaks before the next element. -/
theorem orig_newlines_formula (tokens : List PyTree) (i : Nat) (a : PyTree)
    (h : (sortByLineno tokens).get? i = some a) :
    (computeNewlines tokens).get? i =
      some (idOf a,
        (linenoOf a : Int) - (prevCursor 1 (sortByLineno tokens) i : Int)
          - (commentOffset a : Int)) := by
  rw [computeNewlines, computeNewlinesLoop_get?, h]
  rfl

/-- Witness for C3: on the worklist collected from `exOrig`, position 2 (the
end marker, line 5) follows the multiline string, so its gap is computed
relative to the string's last line: `5 - 4 - 0 = 1`. -/
theorem orig_newlines_formula_witness :
    (computeNewlines (collectFirstTokens [] exOrig)).get? 2 = some (7, 1) := by
  have h := orig_newlines_formula (collectFirstTokens [] exOrig) 2
    (.leaf 7 "ENDMARKER" "" 5 0) rfl
  rw [h]
  rfl

/-- Nonnegativity of the scan's results along a well-formed chain. -/
theorem computeNewlinesLoop_nonneg (l : List PyTree) :
    ∀ prev : Nat, wellFormedChain (prev : Int) l = true →
      ∀ w ∈ computeNewlinesLoop prev l, 0 ≤ w.2 := by
  induction l with
  | nil =>
    intro prev _ w hw
    simp [computeNewlinesLoop] at hw
  | cons a rest ih =>
    intro prev h w hw
    rw [wellFormedChain, Bool.and_eq_true, decide_eq_true_iff] at h
    rcases h with ⟨h1, h2⟩
    rw [computeNewlinesLoop, List.mem_cons] at hw
    rcases hw with hw | hw
    · subst hw; simp only; omega
    · exact ih (advancedPrev a) h2 w hw

/-- C4: on a well-formed input tree (layout metadata consistent with an
actual source layout: the sorted non-layout leaves occupy ordered, disjoint
line ranges starting at line 1), every ORIGINAL_NEWLINES value computed by
pass 1 is non-negative. -/
theorem orig_newlines_nonneg (t : PyTree) (h : wellFormedTree t = true) :
    ∀ w ∈ origVisit t, 0 ≤ w.2 :=
  computeNewlinesLoop_nonneg (sortByLineno (collectFirstTokens [] t)) 1 h

/-- Witness for C4: `exOrig` (a two-line comment, a multiline docstring and
the end marker) is well-formed, and the end marker's computed value, 1, is
non-negative. -/
theorem orig_newlines_nonneg_witness :
    wellFormedTree exOrig = true ∧
      ((7 : Nat), (1 : Int)) ∈ origVisit exOrig ∧
      0 ≤ (((7 : Nat), (1 : Int)) : Nat × Int).2 :=
  ⟨by decide, by decide, orig_newlines_nonneg exOrig (by decide) (7, 1) (by decide)⟩

/-- C9: pass 1 is idempotent on the annotation store.  A second run of a
fresh `_OriginalBlankLinesCalculator` on the same tree collects the same
worklist and computes the same values, and `SetNodeAnnotation` overwrites, so
the store after two runs equals the store after one. -/
theorem orig_run_idempotent (t : PyTree) (m : Nat → Option Int) :
    origRun t (origRun t m) = origRun t m := by
  funext i
  unfold origRun
  cases ((origVisit t).filterMap fun w => if w.1 == i then some w.2 else none).getLast? <;> simp

/-! ### Theorems about pass 2 -/

/-- C5: whenever `_GetNumNewlines` is reached with `last_was_decorator` false
for a top-level node, it returns `1 + BLANK_LINES_AROUND_TOP_LEVEL_DEFINITION`;
concretely, on two consecutive top-level function definitions with that
option set to 2 and no intervening comments or decorators, the second
definition's governed `def` leaf (identity 16) ends the run annotated with
NEWLINES = 3. -/
theorem top_level_spacing :
    (∀ (cfg : Nat) (st : BLCState) (t : PyTree) (prevSib : Option PyTree),
        st.last_was_decorator = false → isTopLevel st t prevSib = true →
        getNumNewlines cfg st t prevSib = 1 + cfg) ∧
    getNewlines (runBlankLines 2 exTwoDefs) 16 = some (some 3) := by
  constructor
  · intro cfg st t ps h1 h2
    simp [getNumNewlines, h1, h2]
  · rfl

/-- Witness for C5: the initial state has `last_was_decorator` false and
`exTwoDefs` is top-level (first leaf in column 0, nesting levels 0), so the
rule yields `1 + 2 = 3`. -/
theorem top_level_spacing_witness :
    getNumNewlines 2 initState exTwoDefs none = 1 + 2 :=
  top_level_spacing.1 2 initState exTwoDefs none rfl rfl

set_option maxHeartbeats 1000000 in
/-- C8: whenever `_GetNumNewlines` is reached with `last_was_decorator` false
inside a class or function body (a nonzero nesting level), it returns the
fixed `_ONE_BLANK_LINE = 2` for every configuration value; concretely, on two
consecutive method definitions inside a class body the second method's
governed `def` leaf (identity 24) ends the run annotated with NEWLINES = 2
for every value of BLANK_LINES_AROUND_TOP_LEVEL_DEFINITION. -/
theorem nested_spacing_config_independent :
    (∀ (cfg : Nat) (st : BLCState) (t : PyTree) (prevSib : Option PyTree),
        st.last_was_decorator = false →
        (st.class_level == 0 && st.function_level == 0) = false →
        getNumNewlines cfg st t prevSib = ONE_BLANK_LINE) ∧
    ∀ cfg : Nat, getNewlines (runBlankLines cfg exClassTwoMethods) 24 = some (some 2) := by
  constructor
  · intro cfg st t ps h1 h2
    simp [getNumNewlines, isTopLevel, h1, h2]
  · intro cfg
    simp [getNewlines, runBlankLines, visit, visitList, initState, exClassTwoMethods,
      funcdefResolve, setBlankLinesBetweenCommentAndClassFunc, setBlankLoop, setNumNewlines,
      decoratorWrite, defaultNodeVisitPre, simpleStmtPost, getNumNewlines, isTopLevel,
      startsInZerothColumn, asyncFunction, isCommentStatement, commentLeafOf, childrenOf,
      nodeName, idOf, linenoOf, columnOf, firstLeafNode, NO_BLANK_LINES, ONE_BLANK_LINE,
      PYTHON_STATEMENTS]

/-- Witness for C8: with `class_level = 1` the rule yields 2 under the
configuration value 7, and the second method of `exClassTwoMethods` is
annotated 2 under the configuration value 0. -/
theorem nested_spacing_config_independent_witness :
    getNumNewlines 7 { initState with class_level := 1 } exClassTwoMethods none = ONE_BLANK_LINE ∧
    getNewlines (runBlankLines 0 exClassTwoMethods) 24 = some (some 2) :=
  ⟨nested_spacing_config_independent.1 7 { initState with class_level := 1 }
      exClassTwoMethods none rfl rfl,
    nested_spacing_config_independent.2 0⟩

/-- The comment-consuming loop leaves the state untouched when
`last_was_decorator` holds (the comment writes are skipped). -/
theorem setBlankLoop_decorator (cs : List PyTree) :
    ∀ st : BLCState, st.last_was_decorator = true → (setBlankLoop st cs).2 = st := by
  induction cs with
  | nil => intro st _; rfl
  | cons c rest ih =>
    intro st h
    by_cases hc : isCommentStatement c = true
    · simp only [setBlankLoop, hc, if_pos, h, if_true]
      exact ih st h
    · simp only [setBlankLoop, hc]
      rfl

/-- C6: whenever a class or function definition is resolved with
`last_was_decorator` true, `_SetBlankLinesBetweenCommentAndClassFunc` writes
exactly `_NO_BLANK_LINES = 1` to the governed child — whichever of its three
branches fires, and regardless of top-level or nesting status; concretely, in
`@deco\ndef f():\n  pass\n` the `def` keyword leaf (identity 7) following the
decorator ends the run annotated with NEWLINES = 1. -/
theorem decorator_hugging :
    (∀ (cfg : Nat) (st : BLCState) (t : PyTree) (prevSib : Option PyTree) (c : PyTree),
        st.last_was_decorator = true →
        (childrenOf t).get? (setBlankLoop st (childrenOf t)).1 = some c →
        (setBlankLinesBetweenCommentAndClassFunc cfg st t prevSib).2 =
          setNumNewlines st (idOf c) (some NO_BLANK_LINES)) ∧
    getNewlines (runBlankLines 2 exDecorated) 7 = some (some 1) := by
  constructor
  · intro cfg st t ps c hdec hc
    have h2 := setBlankLoop_decorator (childrenOf t) st hdec
    simp only [setBlankLinesBetweenCommentAndClassFunc, h2, hc]
    split
    · rfl
    · split
      · rfl
      · simp [getNumNewlines, hdec]
  · rfl

/-- Witness for C6: resolving the decorated funcdef with `last_was_decorator`
true writes NEWLINES = 1 to its governed `def` leaf (identity 7). -/
theorem decorator_hugging_witness :
    (setBlankLinesBetweenCommentAndClassFunc 2
        { initState with last_was_decorator := true } exDecoratedFuncdef none).2 =
      setNumNewlines { initState with last_was_decorator := true } 7 (some NO_BLANK_LINES) :=
  decorator_hugging.1 2 { initState with last_was_decorator := true } exDecoratedFuncdef none
    (.leaf 7 "NAME" "def" 2 0) rfl rfl

/-- Element at the position just past a prefix of an append. -/
theorem listGetAppendLength {α : Type} (l : List α) (c : α) (r : List α) :
    (l ++ c :: r).get? l.length = some c := by
  induction l with
  | nil => rfl
  | cons a as ih => simpa using ih

/-- The comment-consuming loop on comment statements followed by a
non-comment child: with `last_was_decorator` false it annotates every comment
leaf with `_ONE_BLANK_LINE` and stops at the non-comment child. -/
theorem setBlankLoop_append (cs₀ : List PyTree) :
    ∀ (st : BLCState) (c : PyTree) (rest : List PyTree),
      st.last_was_decorator = false →
      (∀ x ∈ cs₀, isCommentStatement x = true) →
      isCommentStatement c = false →
      setBlankLoop st (cs₀ ++ c :: rest) =
        (cs₀.length,
          { st with writes := st.writes ++
              cs₀.map fun x => (idOf (commentLeafOf x), some ONE_BLANK_LINE) }) := by
  induction cs₀ with
  | nil =>
    intro st c rest hdec hall hc
    simp [setBlankLoop, hc]
  | cons a as ih =>
    intro st c rest hdec hall hc
    have ha : isCommentStatement a = true := hall a (List.mem_cons_self a as)
    have hall2 : ∀ x ∈ as, isCommentStatement x = true := fun x hx =>
      hall x (List.mem_cons_of_mem a hx)
    have hrec := ih (setNumNewlines st (idOf (commentLeafOf a)) (some ONE_BLANK_LINE))
      c rest hdec hall2 hc
    simp only [List.cons_append, setBlankLoop, ha, if_true, List.append_eq]
    rw [if_neg (by simp [hdec])]
    rw [hrec]
    simp [setNumNewlines, List.append_assoc]

/-- C7: a class or function definition with leading comment children whose
last comment sits on the line right before the first non-comment child is
resolved as follows (`last_was_decorator` false): every leading comment leaf
is annotated `_ONE_BLANK_LINE = 2` and the governed child `_NO_BLANK_LINES = 1`,
the comment-adjacency branch overriding the normal rule. -/
theorem comment_glue (cfg : Nat) (st : BLCState) (t : PyTree) (prevSib : Option PyTree)
    (front : List PyTree) (lastC c : PyTree) (rest : List PyTree)
    (hch : childrenOf t = front ++ lastC :: c :: rest)
    (hdec : st.last_was_decorator = false)
    (hfront : ∀ x ∈ front, isCommentStatement x = true)
    (hlast : isCommentStatement lastC = true)
    (hc : isCommentStatement c = false)
    (hadj : linenoOf c = linenoOf (commentLeafOf lastC) + 1) :
    setBlankLinesBetweenCommentAndClassFunc cfg st t prevSib =
      (front.length + 1,
        { st with writes := st.writes ++
            ((front ++ [lastC]).map fun x => (idOf (commentLeafOf x), some ONE_BLANK_LINE)) ++
            [(idOf c, some NO_BLANK_LINES)] }) := by
  have hch2 : childrenOf t = (front ++ [lastC]) ++ c :: rest := by
    rw [hch]; simp
  have hall : ∀ x ∈ front ++ [lastC], isCommentStatement x = true := by
    intro x hx
    rcases List.mem_append.mp hx with h | h
    · exact hfront x h
    · rw [List.mem_singleton] at h; subst h; exact hlast
  have hloop := setBlankLoop_append (front ++ [lastC]) st c rest hdec hall hc
  have hget1 : ((front ++ [lastC]) ++ c :: rest).get? ((front ++ [lastC]).length) = some c :=
    listGetAppendLength (front ++ [lastC]) c rest
  have hget0 : ((front ++ [lastC]) ++ c :: rest).get? ((front ++ [lastC]).length - 1) =
      some lastC := by
    have he : (front ++ [lastC]) ++ c :: rest = front ++ lastC :: c :: rest := by simp
    have hl : (front ++ [lastC]).length - 1 = front.length := by simp
    rw [he, hl]
    exact listGetAppendLength front lastC (c :: rest)
  simp only [setBlankLinesBetweenCommentAndClassFunc, hch2, hloop, hget1, hget0]
  simp [hadj, setNumNewlines, List.append_assoc]

/-- Witness for C7: resolving `exGluedFuncdef` (leading comment on line 1,
`def` keyword on line 2) annotates the comment leaf (identity 32) with 2 and
the governed `def` leaf (identity 34) with 1. -/
theorem comment_glue_witness :
    setBlankLinesBetweenCommentAndClassFunc 2 initState exGluedFuncdef none =
      (1, { initState with
              writes := [(32, some ONE_BLANK_LINE), (34, some NO_BLANK_LINES)] }) := by
  have h := comment_glue 2 initState exGluedFuncdef none [] exGluedComment exGluedKeyword
    exGluedRest rfl rfl (by intro x hx; simp at hx) rfl rfl rfl
  simpa using h

/-- C1 fails on the code: `Visit_funcdef` calls
`_SetBlankLinesBetweenCommentAndClassFunc` on a non-async funcdef twice —
once unconditionally at line 160 and once more in the non-async branch at
line 166 — so a governed leaf's NEWLINES annotation is written twice in a
single traversal.  On `exTwoDefs`, the `def` leaf of each definition
(identities 2 and 16) receives exactly two writes. -/
theorem funcdef_double_write :
    writeCount (runBlankLines 2 exTwoDefs) 16 = 2 ∧
    (runBlankLines 2 exTwoDefs).writes =
      [(2, some 1), (2, some 1), (16, some 3), (16, some 3)] :=
  ⟨rfl, rfl⟩

/-! ### Theorems about the range of written values (C10) -/

/-- Every tree has positive size. -/
theorem tsize_pos (t : PyTree) : 1 ≤ tsize t := by
  cases t <;> simp [tsize]

/-- A member of a child list is no larger than the list. -/
theorem tsize_le_of_mem (c : PyTree) (l : List PyTree) (h : c ∈ l) : tsize c ≤ tsizeList l := by
  induction l with
  | nil => cases h
  | cons a as ih =>
    rcases List.mem_cons.mp h with h2 | h2
    · subst h2; simp [tsizeList]
    · have := ih h2
      simp only [tsizeList]
      omega

/-- A list with no ASYNC element has no ASYNC member. -/
theorem hasAsync_of_mem (l : List PyTree) (h : hasAsyncList l = false) :
    ∀ c ∈ l, hasAsync c = false := by
  induction l with
  | nil => intro c hc; cases hc
  | cons a as ih =>
    intro c hc
    rw [hasAsyncList, Bool.or_eq_false_iff] at h
    rcases List.mem_cons.mp hc with h2 | h2
    · subst h2; exact h.1
    · exact ih h.2 c h2

/-- A non-ASYNC element is not an ASYNC previous sibling. -/
theorem asyncFunction_of_hasAsync (c : PyTree) (h : hasAsync c = false) :
    asyncFunction (some c) = false := by
  cases c with
  | leaf i n v l col => simpa [hasAsync, asyncFunction, nodeName] using h
  | node i n cs =>
    rw [hasAsync, Bool.or_eq_false_iff] at h
    simpa [asyncFunction, nodeName] using h.1

/-- Reflexivity of the allowed-writes extension. -/
theorem goodExt_refl (cfg : Nat) (strict : Bool) (s : BLCState) : GoodExt cfg strict s s :=
  ⟨[], by simp, by simp⟩

/-- Transitivity of the allowed-writes extension. -/
theorem goodExt_trans {cfg : Nat} {strict : Bool} {s1 s2 s3 : BLCState}
    (h1 : GoodExt cfg strict s1 s2) (h2 : GoodExt cfg strict s2 s3) :
    GoodExt cfg strict s1 s3 := by
  obtain ⟨d1, hw1, ha1⟩ := h1
  obtain ⟨d2, hw2, ha2⟩ := h2
  refine ⟨d1 ++ d2, ?_, ?_⟩
  · rw [hw2, hw1, List.append_assoc]
  · intro w hw
    rcases List.mem_append.mp hw with h | h
    · exact ha1 w h
    · exact ha2 w h

/-- A state with the same writes is an allowed extension. -/
theorem goodExt_of_writes_eq {cfg : Nat} {strict : Bool} {s1 s2 : BLCState}
    (h : s2.writes = s1.writes) : GoodExt cfg strict s1 s2 :=
  ⟨[], by simp [h], by simp⟩

/-- One allowed `_SetNumNewlines` write is an allowed extension. -/
theorem goodExt_setNumNewlines {cfg : Nat} {strict : Bool} (s : BLCState) (i : Nat)
    {v : Option Nat} (h : allowedWrite cfg strict v) :
    GoodExt cfg strict s (setNumNewlines s i v) := by
  refine ⟨[(i, v)], rfl, ?_⟩
  intro w hw
  rw [List.mem_singleton] at hw
  subst hw
  exact h

/-- `_GetNumNewlines` only returns the two constants or `1 + cfg`. -/
theorem getNumNewlines_allowed (cfg : Nat) (strict : Bool) (st : BLCState) (t : PyTree)
    (ps : Option PyTree) : allowedWrite cfg strict (some (getNumNewlines cfg st t ps)) := by
  unfold getNumNewlines allowedWrite
  split_ifs <;> simp

/-- The comment-consuming loop only appends allowed writes. -/
theorem setBlankLoop_goodExt (cfg : Nat) (strict : Bool) (cs : List PyTree) :
    ∀ st : BLCState, GoodExt cfg strict st (setBlankLoop st cs).2 := by
  induction cs with
  | nil => intro st; exact goodExt_refl cfg strict st
  | cons c rest ih =>
    intro st
    rw [setBlankLoop]
    split
    · have hstep : GoodExt cfg strict st
          (if st.last_was_decorator then st
           else setNumNewlines st (idOf (commentLeafOf c)) (some ONE_BLANK_LINE)) := by
        split
        · exact goodExt_refl cfg strict st
        · exact goodExt_setNumNewlines st _ (Or.inr (Or.inl rfl))
      exact goodExt_trans hstep (ih _)
    · exact goodExt_refl cfg strict st

/-- `_SetBlankLinesBetweenCommentAndClassFunc` only appends allowed writes. -/
theorem setBlank_goodExt (cfg : Nat) (strict : Bool) (st : BLCState) (t : PyTree)
    (ps : Option PyTree) :
    GoodExt cfg strict st (setBlankLinesBetweenCommentAndClassFunc cfg st t ps).2 := by
  have hloop := setBlankLoop_goodExt cfg strict (childrenOf t) st
  simp only [setBlankLinesBetweenCommentAndClassFunc]
  split
  · exact hloop
  · split
    · exact goodExt_trans hloop (goodExt_setNumNewlines _ _ (Or.inl rfl))
    · split
      · exact goodExt_trans hloop (goodExt_setNumNewlines _ _ (Or.inl rfl))
      · exact goodExt_trans hloop
          (goodExt_setNumNewlines _ _ (getNumNewlines_allowed cfg strict _ t ps))

/-- The decorator annotation step only appends allowed writes. -/
theorem decoratorWrite_goodExt (cfg : Nat) (strict : Bool) (st : BLCState) (t : PyTree)
    (ps : Option PyTree) : GoodExt cfg strict st (decoratorWrite cfg st t ps) := by
  unfold decoratorWrite
  split
  · exact goodExt_refl cfg strict st
  · split
    · exact goodExt_setNumNewlines _ _ (Or.inl rfl)
    · exact goodExt_setNumNewlines _ _ (getNumNewlines_allowed cfg strict st t ps)

/-- The post-definition statement annotation step only appends allowed
writes. -/
theorem defaultNodeVisitPre_goodExt (cfg : Nat) (strict : Bool) (st : BLCState) (t : PyTree) :
    GoodExt cfg strict st (defaultNodeVisitPre cfg st t) := by
  unfold defaultNodeVisitPre
  by_cases h : (st.last_was_class_or_function && PYTHON_STATEMENTS.contains (nodeName t)) = true
  · simp only [h, if_true]
    exact goodExt_trans
      (goodExt_setNumNewlines st (idOf (firstLeafNode t))
        (getNumNewlines_allowed cfg strict st (firstLeafNode t) none))
      (goodExt_of_writes_eq rfl)
  · rw [Bool.not_eq_true] at h
    simp only [h, Bool.false_eq_true, if_false]
    exact goodExt_of_writes_eq rfl

/-- Recording a comment line does not change the writes. -/
theorem simpleStmtPost_writes (st : BLCState) (cs : List PyTree) :
    (simpleStmtPost st cs).writes = st.writes := by
  unfold simpleStmtPost
  split
  · split <;> rfl
  · rfl

/-- The funcdef resolution steps only append allowed writes; when `strict`,
the node is guaranteed non-async and the `None` write cannot happen. -/
theorem funcdefResolve_goodExt (cfg : Nat) (strict : Bool)
    (p pp ps : Option PyTree) (st : BLCState) (t : PyTree)
    (h : strict = true → asyncFunction ps = false) :
    GoodExt cfg strict st (funcdefResolve cfg p pp ps st t).2 := by
  have h1 := setBlank_goodExt cfg strict st t ps
  unfold funcdefResolve
  by_cases ha : asyncFunction ps = true
  · cases strict with
    | true => rw [h rfl] at ha; cases ha
    | false =>
      simp only [ha, if_true]
      cases p with
      | none =>
        refine goodExt_trans h1 ?_
        split
        · exact goodExt_setNumNewlines _ _ (Or.inr (Or.inr (Or.inr ⟨rfl, rfl⟩)))
        · exact goodExt_refl cfg false _
      | some q =>
        refine goodExt_trans (goodExt_trans h1
          (setBlank_goodExt cfg false (setBlankLinesBetweenCommentAndClassFunc cfg st t ps).2
            q pp)) ?_
        split
        · exact goodExt_setNumNewlines _ _ (Or.inr (Or.inr (Or.inr ⟨rfl, rfl⟩)))
        · exact goodExt_refl cfg false _
  · rw [Bool.not_eq_true] at ha
    simp only [ha, Bool.false_eq_true, if_false]
    exact goodExt_trans h1 (setBlank_goodExt cfg strict _ t ps)

/-- The child-list traversal only appends allowed writes, given that every
member's visit does. -/
theorem visitList_goodExt (cfg : Nat) (strict : Bool) (l : List PyTree)
    (hvis : ∀ c ∈ l, ∀ (p pp ps : Option PyTree) (st : BLCState),
      (strict = true → asyncFunction ps = false) →
      GoodExt cfg strict st (visit cfg p pp ps st c))
    (hl : strict = true → hasAsyncList l = false) :
    ∀ (p pp : Option PyTree) (skip : Nat) (pv : Option PyTree) (st : BLCState),
      (strict = true → asyncFunction pv = false) →
      GoodExt cfg strict st (visitList cfg p pp skip pv st l) := by
  induction l with
  | nil =>
    intro p pp skip pv st _
    exact goodExt_refl cfg strict st
  | cons c cs ih =>
    intro p pp skip pv st hpv
    have hcs : strict = true → hasAsyncList cs = false := by
      intro hs
      have := hl hs
      rw [hasAsyncList, Bool.or_eq_false_iff] at this
      exact this.2
    have hsomec : strict = true → asyncFunction (some c) = false := by
      intro hs
      have := hl hs
      rw [hasAsyncList, Bool.or_eq_false_iff] at this
      exact asyncFunction_of_hasAsync c this.1
    have hvis_cs : ∀ c' ∈ cs, ∀ (p pp ps : Option PyTree) (st : BLCState),
        (strict = true → asyncFunction ps = false) →
        GoodExt cfg strict st (visit cfg p pp ps st c') :=
      fun c' h' => hvis c' (List.mem_cons_of_mem c h')
    rw [visitList]
    split
    · exact ih hvis_cs hcs p pp (skip - 1) (some c) st hsomec
    · exact goodExt_trans (hvis c (List.mem_cons_self c cs) p pp pv st hpv)
        (ih hvis_cs hcs p pp 0 (some c) _ hsomec)


/-- The start state of an allowed extension may be replaced by one with the
same writes. -/
theorem goodExt_source_writes {cfg : Nat} {strict : Bool} {s1 s2 : BLCState}
    (h : GoodExt cfg strict s1 s2) {s1' : BLCState} (hw : s1.writes = s1'.writes) :
    GoodExt cfg strict s1' s2 := by
  obtain ⟨d, hd, ha⟩ := h
  exact ⟨d, by rw [hd, hw], ha⟩

/-- The visitor only appends allowed writes: by strong induction on the tree
size, every handler is a composition of allowed-write steps and child
traversals. -/
theorem visit_goodExt (cfg : Nat) (strict : Bool) :
    ∀ (n : Nat) (t : PyTree), tsize t ≤ n →
      ∀ (p pp ps : Option PyTree) (st : BLCState),
        (strict = true → hasAsync t = false ∧ asyncFunction ps = false) →
        GoodExt cfg strict st (visit cfg p pp ps st t) := by
  intro n
  induction n with
  | zero =>
    intro t ht
    have := tsize_pos t
    omega
  | succ n ih =>
    intro t ht p pp ps st hstrict
    cases t with
    | leaf i nm v l c =>
      exact goodExt_refl cfg strict st
    | node i name cs =>
      have hsize : tsizeList cs ≤ n := by
        rw [tsize] at ht
        omega
      have hnode : strict = true → (name == "ASYNC") = false ∧ hasAsyncList cs = false := by
        intro hs
        have := (hstrict hs).1
        rw [hasAsync, Bool.or_eq_false_iff] at this
        exact this
      have hvis_mem : ∀ c ∈ cs, ∀ (p pp ps : Option PyTree) (st : BLCState),
          (strict = true → asyncFunction ps = false) →
          GoodExt cfg strict st (visit cfg p pp ps st c) := by
        intro c hc p' pp' ps' st' hps'
        refine ih c (le_trans (tsize_le_of_mem c cs hc) hsize) p' pp' ps' st' ?_
        intro hs
        exact ⟨hasAsync_of_mem cs ((hnode hs).2) c hc, hps' hs⟩
      have hlist := visitList_goodExt cfg strict cs hvis_mem (fun hs => (hnode hs).2)
      rw [visit]
      split
      · -- simple_stmt
        exact goodExt_trans
          (goodExt_trans (defaultNodeVisitPre_goodExt cfg strict st (PyTree.node i name cs))
            (hlist (some (PyTree.node i name cs)) ps 0 none
              (defaultNodeVisitPre cfg st (PyTree.node i name cs)) (fun _ => rfl)))
          (goodExt_of_writes_eq (simpleStmtPost_writes
            (visitList cfg (some (PyTree.node i name cs)) ps 0 none
              (defaultNodeVisitPre cfg st (PyTree.node i name cs)) cs) cs))
      · split
        · -- decorator
          exact goodExt_trans
            (goodExt_trans (decoratorWrite_goodExt cfg strict st (PyTree.node i name cs) ps)
              (hlist (some (PyTree.node i name cs)) ps 0 none
                (decoratorWrite cfg st (PyTree.node i name cs) ps) (fun _ => rfl)))
            (goodExt_of_writes_eq rfl)
        · split
          · -- classdef
            refine goodExt_trans (goodExt_source_writes (setBlank_goodExt cfg strict
                { st with last_was_class_or_function := false } (PyTree.node i name cs) ps)
                (rfl :
                  ({ st with last_was_class_or_function := false } : BLCState).writes =
                    st.writes)) ?_
            refine goodExt_trans (goodExt_source_writes (hlist (some (PyTree.node i name cs)) ps
                (setBlankLinesBetweenCommentAndClassFunc cfg
                  { st with last_was_class_or_function := false } (PyTree.node i name cs) ps).1
                none
                { (setBlankLinesBetweenCommentAndClassFunc cfg
                    { st with last_was_class_or_function := false }
                    (PyTree.node i name cs) ps).2 with
                  last_was_decorator := false,
                  class_level := (setBlankLinesBetweenCommentAndClassFunc cfg
                    { st with last_was_class_or_function := false }
                    (PyTree.node i name cs) ps).2.class_level + 1 }
                (fun _ => rfl)) rfl) ?_
            exact goodExt_of_writes_eq rfl
          · split
            · -- funcdef
              refine goodExt_trans (goodExt_source_writes (funcdefResolve_goodExt cfg strict
                  p pp ps { st with last_was_class_or_function := false }
                  (PyTree.node i name cs) (fun hs => (hstrict hs).2))
                  (rfl :
                    ({ st with last_was_class_or_function := false } : BLCState).writes =
                      st.writes)) ?_
              refine goodExt_trans (goodExt_source_writes (hlist (some (PyTree.node i name cs)) ps
                  (funcdefResolve cfg p pp ps { st with last_was_class_or_function := false }
                    (PyTree.node i name cs)).1
                  none
                  { (funcdefResolve cfg p pp ps { st with last_was_class_or_function := false }
                      (PyTree.node i name cs)).2 with
                    last_was_decorator := false,
                    function_level := (funcdefResolve cfg p pp ps
                      { st with last_was_class_or_function := false }
                      (PyTree.node i name cs)).2.function_level + 1 }
                  (fun _ => rfl)) rfl) ?_
              exact goodExt_of_writes_eq rfl
            · -- default
              exact goodExt_trans (defaultNodeVisitPre_goodExt cfg strict st (PyTree.node i name cs))
                (hlist (some (PyTree.node i name cs)) ps 0 none
                  (defaultNodeVisitPre cfg st (PyTree.node i name cs)) (fun _ => rfl))

/-- C10: every NEWLINES value written during a `_BlankLineCalculator` run is
`None` or one of the integers `1`, `2`, `1 + BLANK_LINES_AROUND_TOP_LEVEL_DEFINITION`;
every integer written is therefore at least 1 (a line break is never
suppressed entirely), and on a tree without an ASYNC marker — hence without
async function definitions, the only producers of the `None` write — no
`None` is ever written. -/
theorem newlines_values_range (cfg : Nat) (t : PyTree) :
    (∀ w ∈ (runBlankLines cfg t).writes,
      (w.2 = none ∨ w.2 = some NO_BLANK_LINES ∨ w.2 = some ONE_BLANK_LINE ∨
        w.2 = some (1 + cfg)) ∧
      (∀ v, w.2 = some v → 1 ≤ v)) ∧
    (hasAsync t = false → ∀ w ∈ (runBlankLines cfg t).writes, w.2 ≠ none) := by
  constructor
  · intro w hw
    obtain ⟨d, hd, ha⟩ := visit_goodExt cfg false (tsize t) t le_rfl none none none initState
      (by intro h; cases h)
    have hw2 : w ∈ d := by
      rw [runBlankLines] at hw
      rw [hd] at hw
      simpa [initState] using hw
    have hall := ha w hw2
    unfold allowedWrite at hall
    constructor
    · rcases hall with h | h | h | h
      · exact Or.inr (Or.inl h)
      · exact Or.inr (Or.inr (Or.inl h))
      · exact Or.inr (Or.inr (Or.inr h))
      · exact Or.inl h.2
    · intro v hv
      rcases hall with h | h | h | h
      · rw [hv] at h
        simp [NO_BLANK_LINES] at h
        omega
      · rw [hv] at h
        simp [ONE_BLANK_LINE] at h
        omega
      · rw [hv] at h
        simp at h
        omega
      · rw [hv] at h
        cases h.2
  · intro hna w hw
    obtain ⟨d, hd, ha⟩ := visit_goodExt cfg true (tsize t) t le_rfl none none none initState
      (fun _ => ⟨hna, rfl⟩)
    have hw2 : w ∈ d := by
      rw [runBlankLines] at hw
      rw [hd] at hw
      simpa [initState] using hw
    have hall := ha w hw2
    unfold allowedWrite at hall
    rcases hall with h | h | h | h
    · rw [h]; simp
    · rw [h]; simp
    · rw [h]; simp
    · cases h.1

/-- Witness for C10: the write `(16, some 3)` of the run on `exTwoDefs` under
configuration 2 is in the range (`3 = 1 + 2`), is at least 1, and is not
`None` — and `exTwoDefs` indeed has no ASYNC marker. -/
theorem newlines_values_range_witness :
    (((16 : Nat), (some 3 : Option Nat)) ∈ (runBlankLines 2 exTwoDefs).writes ∧
      hasAsync exTwoDefs = false) ∧
    ((((16 : Nat), (some 3 : Option Nat)) : Nat × Option Nat).2 = none ∨
      (((16 : Nat), (some 3 : Option Nat)) : Nat × Option Nat).2 = some NO_BLANK_LINES ∨
      (((16 : Nat), (some 3 : Option Nat)) : Nat × Option Nat).2 = some ONE_BLANK_LINE ∨
      (((16 : Nat), (some 3 : Option Nat)) : Nat × Option Nat).2 = some (1 + 2)) ∧
    (1 : Nat) ≤ 3 ∧
    (((16 : Nat), (some 3 : Option Nat)) : Nat × Option Nat).2 ≠ none := by
  have hm : ((16 : Nat), (some 3 : Option Nat)) ∈ (runBlankLines 2 exTwoDefs).writes := by
    decide
  have hna : hasAsync exTwoDefs = false := by decide
  refine ⟨⟨hm, hna⟩, ?_, ?_, ?_⟩
  · exact ((newlines_values_range 2 exTwoDefs).1 (16, some 3) hm).1
  · exact ((newlines_values_range 2 exTwoDefs).1 (16, some 3) hm).2 3 rfl
  · exact (newlines_values_range 2 exTwoDefs).2 hna (16, some 3) hm
